import Mathlib

/-!
Shallow embedding of the decode-and-reconstruct layer of the Esplora API
client (`src/api.rs`): the raw record model, the canonical transaction
builder `Tx.to_tx`, the pure extractors `Tx.confirmation_time` and
`Tx.previous_outputs`, and the witness hex decoder `deserialize_witness`.

Byte sequences are `List Nat`; opaque hash identifiers (`Txid`,
`BlockHash`) are `Nat`; machine integers are `Nat`/`Int` (the functions
here only copy them, never do arithmetic on them).
-/

namespace Esplora

/-- Error raised when a bounded collection violates its size bounds.
Modelled from the spec: the `confinement::Error` of the external
`amplify` dependency (its source is not part of this repository). -/
inductive ConfinementError where
  | undersize : ConfinementError
  | oversize : ConfinementError
deriving DecidableEq

/-- Modelled from the spec: the protocol-defined maximum element count of
the bounded input/output collections (a var-int array holds at most
2^64 - 1 elements). -/
def maxElements : Nat := 2 ^ 64 - 1

/-- Modelled from the spec: `Confined::try_from_iter` of the external
`amplify` dependency, as used by `Tx::to_tx` — it fails with a
`ConfinementError` if the sequence is empty or exceeds the maximum
allowed element count, and otherwise yields the sequence unchanged. -/
def confinedTryFromIter {α : Type} (l : List α) : Except ConfinementError (List α) :=
  if l.length = 0 then .error .undersize
  else if maxElements < l.length then .error .oversize
  else .ok l

/-- `PrevOut` (src/api.rs): the output being spent, as seen by the explorer. -/
structure PrevOut where
  value : Nat
  scriptpubkey : List Nat
deriving DecidableEq

/-- `Vin` (src/api.rs): a raw transaction input record. -/
structure Vin where
  txid : Nat
  vout : Nat
  prevout : Option PrevOut
  scriptsig : List Nat
  witness : List (List Nat)
  sequence : Nat
  is_coinbase : Bool
deriving DecidableEq

/-- `Vout` (src/api.rs): a raw transaction output record. -/
structure Vout where
  value : Nat
  scriptpubkey : List Nat
deriving DecidableEq

/-- `TxStatus` (src/api.rs). -/
structure TxStatus where
  confirmed : Bool
  block_height : Option Nat
  block_hash : Option Nat
  block_time : Option Nat
deriving DecidableEq

/-- `Tx` (src/api.rs): the raw transaction record. -/
structure Tx where
  txid : Nat
  version : Int
  locktime : Nat
  vin : List Vin
  vout : List Vout
  size : Nat
  weight : Nat
  status : TxStatus
  fee : Nat
deriving DecidableEq

/-- `BlockTime` (src/api.rs). -/
structure BlockTime where
  timestamp : Nat
  height : Nat
deriving DecidableEq

/-- `Outpoint` of the external `bp` dependency: reference to a previously
created output, built by `Outpoint::new(txid, vout)`. -/
structure Outpoint where
  txid : Nat
  vout : Nat
deriving DecidableEq

/-- `TxIn` of the external `bp` dependency: a canonical transaction input.
`SeqNo::from_consensus_u32` and `Witness::from_consensus_stack` carry the
raw 32-bit sequence number and the decoded witness stack over verbatim. -/
structure TxIn where
  prev_output : Outpoint
  sig_script : List Nat
  sequence : Nat
  witness : List (List Nat)
deriving DecidableEq

/-- `TxOut` of the external `bp` dependency: a canonical transaction output. -/
structure TxOut where
  value : Nat
  script_pubkey : List Nat
deriving DecidableEq

/-- `Tx` of the external `bp` dependency (imported as `Transaction`):
the canonical transaction. `TxVer::from_consensus_i32` and
`LockTime::from_consensus_u32` carry the raw numeric values verbatim. -/
structure Transaction where
  version : Int
  lock_time : Nat
  inputs : List TxIn
  outputs : List TxOut
deriving DecidableEq

/-- The per-input closure of `Tx::to_tx` (src/api.rs lines 143-148). -/
def vinToTxIn (vin : Vin) : TxIn :=
  { prev_output := { txid := vin.txid, vout := vin.vout }
    sig_script := vin.scriptsig
    sequence := vin.sequence
    witness := vin.witness }

/-- The per-output closure of `Tx::to_tx` (src/api.rs lines 149-152). -/
def voutToTxOut (vout : Vout) : TxOut :=
  { value := vout.value, script_pubkey := vout.scriptpubkey }

/-- `Tx::to_tx` (src/api.rs lines 142-159): builds the canonical
transaction, confining the input and output sequences. -/
def Tx.to_tx (self : Tx) : Except ConfinementError Transaction := do
  let inputs ← confinedTryFromIter (self.vin.map vinToTxIn)
  let outputs ← confinedTryFromIter (self.vout.map voutToTxOut)
  pure { version := self.version, lock_time := self.locktime,
         inputs := inputs, outputs := outputs }

/-- `Tx::confirmation_time` (src/api.rs lines 161-171). Field order in the
pattern follows the `TxStatus` declaration: confirmed, block_height,
block_hash, block_time. -/
def Tx.confirmation_time (self : Tx) : Option BlockTime :=
  match self.status with
  | ⟨true, some height, _, some timestamp⟩ => some ⟨timestamp, height⟩
  | _ => none

/-- `Tx::previous_outputs` (src/api.rs lines 173-184). -/
def Tx.previous_outputs (self : Tx) : List (Option TxOut) :=
  self.vin.map fun vin =>
    vin.prevout.map fun po =>
      { script_pubkey := po.scriptpubkey, value := po.value }

/-- Error raised on a malformed hex string. Modelled from the spec: the
hex decoding error of the external `amplify::hex` dependency. -/
inductive HexDecodeError where
  | oddLength : HexDecodeError
  | invalidChar : HexDecodeError
deriving DecidableEq

/-- Value of a single hex digit, or `none` for a non-hex character. -/
def hexDigitValue (c : Char) : Option Nat :=
  if ('0' ≤ c ∧ c ≤ '9') then some (c.toNat - 48)
  else if ('a' ≤ c ∧ c ≤ 'f') then some (c.toNat - 87)
  else if ('A' ≤ c ∧ c ≤ 'F') then some (c.toNat - 55)
  else none

/-- Hex decoding of a character sequence, two digits per byte, left to
right; fails on a non-hex character or odd length. -/
def fromHexChars : List Char → Except HexDecodeError (List Nat)
  | [] => .ok []
  | [_] => .error .oddLength
  | c1 :: c2 :: rest =>
    match hexDigitValue c1, hexDigitValue c2 with
    | some hi, some lo =>
      match fromHexChars rest with
      | .ok bs => .ok ((16 * hi + lo) :: bs)
      | .error e => .error e
    | _, _ => .error .invalidChar

/-- `Vec::<u8>::from_hex` of the external `amplify` dependency, applied to
each witness-stack element by `deserialize_witness`. -/
def from_hex (s : String) : Except HexDecodeError (List Nat) :=
  fromHexChars s.data

/-- `deserialize_witness` (src/api.rs lines 187-196) applied to a present
witness field: decodes each hex string in order, failing on the first
malformed element. -/
def deserialize_witness (list : List String) : Except HexDecodeError (List (List Nat)) :=
  list.mapM from_hex

/-- The `witness` field deserialization of `Vin` (src/api.rs lines 32-33):
`deserialize_with = deserialize_witness` together with `default` means an
entirely absent field yields the empty list, while a present field goes
through `deserialize_witness` and fails if malformed. -/
def decodeWitnessField : Option (List String) → Except HexDecodeError (List (List Nat))
  | none => .ok []
  | some list => deserialize_witness list

/-! ## Helper lemmas -/

theorem confined_ok {α : Type} (l : List α)
    (h1 : l.length ≠ 0) (h2 : ¬ maxElements < l.length) :
    confinedTryFromIter l = .ok l := by
  unfold confinedTryFromIter
  rw [if_neg h1, if_neg h2]

theorem confined_ok_inv {α : Type} {l r : List α}
    (h : confinedTryFromIter l = .ok r) :
    r = l ∧ l.length ≠ 0 ∧ ¬ maxElements < l.length := by
  unfold confinedTryFromIter at h
  split at h
  · exact absurd h (by simp)
  · split at h
    · exact absurd h (by simp)
    · exact ⟨(Except.ok.injEq _ _ ▸ h.symm), by assumption, by assumption⟩

theorem to_tx_ok_inv {tx : Tx} {t : Transaction} (h : tx.to_tx = .ok t) :
    t = { version := tx.version, lock_time := tx.locktime,
          inputs := tx.vin.map vinToTxIn, outputs := tx.vout.map voutToTxOut } := by
  unfold Tx.to_tx at h
  simp only [bind, Except.bind, pure, Except.pure] at h
  cases hc1 : confinedTryFromIter (tx.vin.map vinToTxIn) with
  | error e => rw [hc1] at h; exact absurd h (by simp)
  | ok ins =>
    rw [hc1] at h
    cases hc2 : confinedTryFromIter (tx.vout.map voutToTxOut) with
    | error e => rw [hc2] at h; exact absurd h (by simp)
    | ok outs =>
      rw [hc2] at h
      obtain ⟨hins, _, _⟩ := confined_ok_inv hc1
      obtain ⟨houts, _, _⟩ := confined_ok_inv hc2
      cases h
      rw [hins, houts]

theorem to_tx_ok_of_bounds (tx : Tx)
    (h1 : 1 ≤ tx.vin.length) (h2 : tx.vin.length ≤ maxElements)
    (h3 : 1 ≤ tx.vout.length) (h4 : tx.vout.length ≤ maxElements) :
    tx.to_tx = .ok { version := tx.version, lock_time := tx.locktime,
                     inputs := tx.vin.map vinToTxIn,
                     outputs := tx.vout.map voutToTxOut } := by
  have l1 : (List.map vinToTxIn tx.vin).length ≠ 0 := by rw [List.length_map]; omega
  have l2 : ¬ maxElements < (List.map vinToTxIn tx.vin).length := by
    rw [List.length_map]; omega
  have l3 : (List.map voutToTxOut tx.vout).length ≠ 0 := by rw [List.length_map]; omega
  have l4 : ¬ maxElements < (List.map voutToTxOut tx.vout).length := by
    rw [List.length_map]; omega
  unfold Tx.to_tx
  rw [confined_ok _ l1 l2, confined_ok _ l3 l4]
  rfl

/-! ## Claim theorems -/

/-- C1: for every raw record whose input list or output list is empty or
exceeds the protocol-defined maximum element count, `Tx.to_tx` fails with
a `ConfinementError` and returns no transaction; in particular a record
with zero outputs fails. -/
theorem to_tx_fails_on_unconfined (tx : Tx)
    (h : tx.vin.length = 0 ∨ maxElements < tx.vin.length ∨
         tx.vout.length = 0 ∨ maxElements < tx.vout.length) :
    ∃ e : ConfinementError, tx.to_tx = .error e := by
  cases htx : tx.to_tx with
  | error e => exact ⟨e, rfl⟩
  | ok t =>
    exfalso
    unfold Tx.to_tx at htx
    simp only [bind, Except.bind, pure, Except.pure] at htx
    cases hc1 : confinedTryFromIter (tx.vin.map vinToTxIn) with
    | error e => rw [hc1] at htx; simp at htx
    | ok ins =>
      rw [hc1] at htx
      cases hc2 : confinedTryFromIter (tx.vout.map voutToTxOut) with
      | error e => rw [hc2] at htx; simp at htx
      | ok outs =>
        obtain ⟨_, h1, h2⟩ := confined_ok_inv hc1
        obtain ⟨_, h3, h4⟩ := confined_ok_inv hc2
        simp only [List.length_map] at h1 h2 h3 h4
        rcases h with h | h | h | h
        exacts [h1 h, h2 h, h3 h, h4 h]

/-- Witness for C1: the spec scenario of a record with zero outputs. -/
theorem to_tx_fails_on_unconfined_witness :
    ∃ e : ConfinementError,
      Tx.to_tx { txid := 7, version := 2, locktime := 0,
                 vin := [⟨1, 0, none, [0], [], 4294967295, true⟩],
                 vout := [], size := 60, weight := 240,
                 status := ⟨false, none, none, none⟩, fee := 0 } = .error e :=
  to_tx_fails_on_unconfined _ (Or.inr (Or.inr (Or.inl rfl)))

/-- C2: for every raw record with at least one input, at least one output
and both lengths within the protocol bounds, `Tx.to_tx` succeeds and the
canonical input/output counts equal the raw counts, with elements in the
same order. -/
theorem to_tx_succeeds_within_bounds (tx : Tx)
    (h1 : 1 ≤ tx.vin.length) (h2 : tx.vin.length ≤ maxElements)
    (h3 : 1 ≤ tx.vout.length) (h4 : tx.vout.length ≤ maxElements) :
    ∃ t : Transaction, tx.to_tx = .ok t ∧
      t.inputs.length = tx.vin.length ∧ t.outputs.length = tx.vout.length ∧
      t.inputs = tx.vin.map vinToTxIn ∧ t.outputs = tx.vout.map voutToTxOut := by
  exact ⟨{ version := tx.version, lock_time := tx.locktime,
           inputs := tx.vin.map vinToTxIn, outputs := tx.vout.map voutToTxOut },
         to_tx_ok_of_bounds tx h1 h2 h3 h4, by simp, by simp, rfl, rfl⟩

/-- Witness for C2: a one-input one-output record. -/
theorem to_tx_succeeds_within_bounds_witness :
    ∃ t : Transaction,
      Tx.to_tx { txid := 7, version := 2, locktime := 0,
                 vin := [⟨1, 0, none, [0], [], 4294967295, true⟩],
                 vout := [⟨5000000000, [81]⟩], size := 60, weight := 240,
                 status := ⟨false, none, none, none⟩, fee := 0 } = .ok t ∧
      t.inputs.length = 1 ∧ t.outputs.length = 1 ∧
      t.inputs = [vinToTxIn ⟨1, 0, none, [0], [], 4294967295, true⟩] ∧
      t.outputs = [voutToTxOut ⟨5000000000, [81]⟩] :=
  to_tx_succeeds_within_bounds _ (by decide) (by decide) (by decide) (by decide)

/-- C3: whenever `Tx.to_tx` succeeds, each canonical input carries the
outpoint (txid, vout), the verbatim unlocking script, the raw sequence
number and the decoded witness stack of the raw input at the same
position; each canonical output carries the raw output's value and
locking script; and version and lock time come from the raw record. -/
theorem to_tx_elementwise (tx : Tx) (t : Transaction) (h : tx.to_tx = .ok t) :
    t.version = tx.version ∧ t.lock_time = tx.locktime ∧
    (∀ (i : Nat) (v : Vin), tx.vin.get? i = some v →
      ∃ w : TxIn, t.inputs.get? i = some w ∧
        w.prev_output = ⟨v.txid, v.vout⟩ ∧ w.sig_script = v.scriptsig ∧
        w.sequence = v.sequence ∧ w.witness = v.witness) ∧
    (∀ (j : Nat) (u : Vout), tx.vout.get? j = some u →
      ∃ w : TxOut, t.outputs.get? j = some w ∧
        w.value = u.value ∧ w.script_pubkey = u.scriptpubkey) := by
  rcases to_tx_ok_inv h with rfl
  refine ⟨rfl, rfl, ?_, ?_⟩
  · intro i v hv
    rw [List.get?_eq_getElem?] at hv
    refine ⟨vinToTxIn v, ?_, rfl, rfl, rfl, rfl⟩
    simp [List.get?_eq_getElem?, List.getElem?_map, hv]
  · intro j u hu
    rw [List.get?_eq_getElem?] at hu
    refine ⟨voutToTxOut u, ?_, rfl, rfl⟩
    simp [List.get?_eq_getElem?, List.getElem?_map, hu]

/-- Witness for C3: the field correspondence evaluated on a concrete
record. -/
theorem to_tx_elementwise_witness :
    Transaction.version ⟨2, 9, [vinToTxIn ⟨1, 3, none, [0, 1], [[5]], 42, false⟩],
        [voutToTxOut ⟨50, [81]⟩]⟩ = (2 : Int) ∧
    Transaction.lock_time ⟨2, 9, [vinToTxIn ⟨1, 3, none, [0, 1], [[5]], 42, false⟩],
        [voutToTxOut ⟨50, [81]⟩]⟩ = 9 ∧
    (∀ (i : Nat) (v : Vin),
      (Tx.vin { txid := 7, version := 2, locktime := 9,
                vin := [⟨1, 3, none, [0, 1], [[5]], 42, false⟩],
                vout := [⟨50, [81]⟩], size := 60, weight := 240,
                status := ⟨false, none, none, none⟩, fee := 0 }).get? i = some v →
      ∃ w : TxIn,
        (Transaction.inputs ⟨2, 9, [vinToTxIn ⟨1, 3, none, [0, 1], [[5]], 42, false⟩],
            [voutToTxOut ⟨50, [81]⟩]⟩).get? i = some w ∧
        w.prev_output = ⟨v.txid, v.vout⟩ ∧ w.sig_script = v.scriptsig ∧
        w.sequence = v.sequence ∧ w.witness = v.witness) ∧
    (∀ (j : Nat) (u : Vout),
      (Tx.vout { txid := 7, version := 2, locktime := 9,
                 vin := [⟨1, 3, none, [0, 1], [[5]], 42, false⟩],
                 vout := [⟨50, [81]⟩], size := 60, weight := 240,
                 status := ⟨false, none, none, none⟩, fee := 0 }).get? j = some u →
      ∃ w : TxOut,
        (Transaction.outputs ⟨2, 9, [vinToTxIn ⟨1, 3, none, [0, 1], [[5]], 42, false⟩],
            [voutToTxOut ⟨50, [81]⟩]⟩).get? j = some w ∧
        w.value = u.value ∧ w.script_pubkey = u.scriptpubkey) :=
  to_tx_elementwise
    { txid := 7, version := 2, locktime := 9,
      vin := [⟨1, 3, none, [0, 1], [[5]], 42, false⟩],
      vout := [⟨50, [81]⟩], size := 60, weight := 240,
      status := ⟨false, none, none, none⟩, fee := 0 }
    ⟨2, 9, [vinToTxIn ⟨1, 3, none, [0, 1], [[5]], 42, false⟩],
     [voutToTxOut ⟨50, [81]⟩]⟩ rfl

/-- C4: `Tx.confirmation_time` returns a `BlockTime` carrying exactly the
status's height and timestamp iff `confirmed` is true and both height and
timestamp are present; any other combination yields `none`, and the
presence or absence of `block_hash` never affects the result. -/
theorem confirmation_time_iff (tx : Tx) :
    (∀ bt : BlockTime, tx.confirmation_time = some bt ↔
      (tx.status.confirmed = true ∧ tx.status.block_height = some bt.height ∧
       tx.status.block_time = some bt.timestamp)) ∧
    (∀ hash1 hash2 : Option Nat,
      Tx.confirmation_time { tx with status := { tx.status with block_hash := hash1 } } =
      Tx.confirmation_time { tx with status := { tx.status with block_hash := hash2 } }) := by
  obtain ⟨txid, ver, lt, vin, vout, sz, wt, st, fee⟩ := tx
  obtain ⟨c, bh, bhash, btime⟩ := st
  constructor
  · intro bt
    obtain ⟨ts, ht⟩ := bt
    cases c <;> cases bh <;> cases btime <;>
      simp [Tx.confirmation_time] <;> tauto
  · intro hash1 hash2
    cases c <;> cases bh <;> cases btime <;> rfl

/-- C5: `Tx.previous_outputs` has the same length as the input list and,
index-aligned, yields the canonical output built from `prevout` when it
is present and `none` when it is absent. -/
theorem previous_outputs_aligned (tx : Tx) :
    tx.previous_outputs.length = tx.vin.length ∧
    ∀ i : Nat, tx.previous_outputs.get? i =
      (tx.vin.get? i).map fun vin =>
        vin.prevout.map fun po => TxOut.mk po.value po.scriptpubkey := by
  refine ⟨by simp [Tx.previous_outputs], fun i => ?_⟩
  simp [Tx.previous_outputs, List.get?_eq_getElem?, List.getElem?_map]

/-- C6: a record containing a coinbase input without `PrevOut` (and within
the list-length bounds) still builds successfully, and the previous-output
resolver yields nothing at that input's position. -/
theorem coinbase_without_prevout (tx : Tx) (i : Nat) (v : Vin)
    (hv : tx.vin.get? i = some v) (_hcb : v.is_coinbase = true)
    (hpo : v.prevout = none)
    (h2 : tx.vin.length ≤ maxElements)
    (h3 : 1 ≤ tx.vout.length) (h4 : tx.vout.length ≤ maxElements) :
    (∃ t : Transaction, tx.to_tx = .ok t) ∧
    tx.previous_outputs.get? i = some none := by
  rw [List.get?_eq_getElem?] at hv
  have hlt : i < tx.vin.length := by
    cases hlt : decide (i < tx.vin.length) with
    | true => exact of_decide_eq_true hlt
    | false =>
      rw [List.getElem?_eq_none (Nat.le_of_not_lt (of_decide_eq_false hlt))] at hv
      exact absurd hv (by simp)
  refine ⟨⟨_, to_tx_ok_of_bounds tx (by omega) h2 h3 h4⟩, ?_⟩
  simp only [Tx.previous_outputs, List.get?_eq_getElem?, List.getElem?_map, hv]
  simp [hpo]

/-- Witness for C6: the spec scenario — one coinbase input without
prevout, one output of value 5000000000 with script [0x51]. -/
theorem coinbase_without_prevout_witness :
    (∃ t : Transaction,
      Tx.to_tx { txid := 7, version := 1, locktime := 0,
                 vin := [⟨9, 4294967295, none, [0], [], 4294967295, true⟩],
                 vout := [⟨5000000000, [81]⟩], size := 100, weight := 400,
                 status := ⟨false, none, none, none⟩, fee := 0 } = .ok t) ∧
    (Tx.previous_outputs
      { txid := 7, version := 1, locktime := 0,
        vin := [⟨9, 4294967295, none, [0], [], 4294967295, true⟩],
        vout := [⟨5000000000, [81]⟩], size := 100, weight := 400,
        status := ⟨false, none, none, none⟩, fee := 0 }).get? 0 = some none :=
  coinbase_without_prevout _ 0 ⟨9, 4294967295, none, [0], [], 4294967295, true⟩
    rfl rfl rfl (by decide) (by decide) (by decide)

/-- C9: the pure extractors are total: for every record (any status, any
input list, including empty ones) each returns a plain value, with absence
of data represented as `none` rather than an error. -/
theorem extractors_never_fail (tx : Tx) :
    (∃ r : Option BlockTime, tx.confirmation_time = r ∧ (r.isSome = true ∨ r = none)) ∧
    (∃ l : List (Option TxOut), tx.previous_outputs = l ∧
      l.length = tx.vin.length ∧ ∀ o ∈ l, o.isSome = true ∨ o = none) := by
  refine ⟨⟨tx.confirmation_time, rfl, ?_⟩,
          ⟨tx.previous_outputs, rfl, by simp [Tx.previous_outputs], ?_⟩⟩
  · cases tx.confirmation_time <;> simp
  · intro o _
    cases o <;> simp

theorem fromHexChars_error : ∀ l : List Char,
    ((∃ c ∈ l, hexDigitValue c = none) ∨ l.length % 2 = 1) →
    ∃ e : HexDecodeError, fromHexChars l = .error e
  | [], h => by simp at h
  | [_], _ => ⟨.oddLength, rfl⟩
  | c1 :: c2 :: rest, h => by
    cases hv1 : hexDigitValue c1 with
    | none => exact ⟨.invalidChar, by simp only [fromHexChars, hv1]⟩
    | some hi =>
      cases hv2 : hexDigitValue c2 with
      | none => exact ⟨.invalidChar, by simp only [fromHexChars, hv1, hv2]⟩
      | some lo =>
        have h' : (∃ c ∈ rest, hexDigitValue c = none) ∨ rest.length % 2 = 1 := by
          rcases h with ⟨c, hc, hnone⟩ | hodd
          · simp only [List.mem_cons] at hc
            rcases hc with rfl | rfl | hc
            · rw [hv1] at hnone; exact Option.noConfusion hnone
            · rw [hv2] at hnone; exact Option.noConfusion hnone
            · exact Or.inl ⟨c, hc, hnone⟩
          · right
            simp only [List.length_cons] at hodd
            omega
        obtain ⟨e, he⟩ := fromHexChars_error rest h'
        exact ⟨e, by simp only [fromHexChars, hv1, hv2, he]⟩

theorem mapMHex_ok_pointwise {α β : Type} (f : α → Except HexDecodeError β) :
    ∀ (l : List α) (bs : List β), List.mapM' f l = .ok bs →
      bs.length = l.length ∧
      ∀ (i : Nat) (a : α), l.get? i = some a →
        ∃ b, bs.get? i = some b ∧ f a = .ok b
  | [], bs, h => by
    simp only [List.mapM', pure, Except.pure] at h
    cases h
    exact ⟨rfl, fun i a ha => by simp at ha⟩
  | a :: l, bs, h => by
    simp only [List.mapM', bind, Except.bind, pure, Except.pure] at h
    cases hfa : f a with
    | error e => rw [hfa] at h; exact absurd h (by simp)
    | ok b =>
      rw [hfa] at h
      cases hml : List.mapM' f l with
      | error e => rw [hml] at h; exact absurd h (by simp)
      | ok rest =>
        rw [hml] at h
        cases h
        obtain ⟨hlen, hpt⟩ := mapMHex_ok_pointwise f l rest hml
        refine ⟨by simp [hlen], fun i x hx => ?_⟩
        cases i with
        | zero => cases hx; exact ⟨b, rfl, hfa⟩
        | succ n =>
          simp only [List.get?_cons_succ] at hx ⊢
          exact hpt n x hx

/-- C7: an entirely absent witness field deserializes to the empty list
rather than an error; the canonical witness stack of such an input after
`Tx.to_tx` is the empty sequence; and a present but malformed witness
field fails deserialization rather than defaulting. -/
theorem witness_field_semantics :
    decodeWitnessField none = .ok [] ∧
    (∀ (tx : Tx) (t : Transaction) (i : Nat) (v : Vin),
      tx.to_tx = .ok t → tx.vin.get? i = some v → v.witness = [] →
      ∃ w : TxIn, t.inputs.get? i = some w ∧ w.witness = []) ∧
    (∀ (list : List String) (s : String) (e : HexDecodeError),
      s ∈ list → from_hex s = .error e →
      ∃ e2 : HexDecodeError, decodeWitnessField (some list) = .error e2) := by
  refine ⟨rfl, ?_, ?_⟩
  · intro tx t i v h hv hw
    rcases to_tx_ok_inv h with rfl
    rw [List.get?_eq_getElem?] at hv
    refine ⟨vinToTxIn v, ?_, hw⟩
    simp [List.get?_eq_getElem?, List.getElem?_map, hv]
  · intro list s e hmem herr
    cases hres : decodeWitnessField (some list) with
    | error e2 => exact ⟨e2, rfl⟩
    | ok bs =>
      exfalso
      have hmap : List.mapM' from_hex list = .ok bs := by
        rw [List.mapM'_eq_mapM]; exact hres
      obtain ⟨i, hi⟩ := List.get_of_mem (by exact hmem)
      obtain ⟨b, _, hok⟩ := (mapMHex_ok_pointwise from_hex list bs hmap).2 i s
        (by rw [List.get?_eq_get i.isLt, hi])
      rw [herr] at hok
      exact Except.noConfusion hok

/-- Witness for C7: the inner conjuncts at a concrete record and at the
malformed list `["0g"]`. -/
theorem witness_field_semantics_witness :
    (∃ w : TxIn,
      (Transaction.inputs ⟨1, 0, [vinToTxIn ⟨9, 0, none, [0], [], 0, true⟩],
          [voutToTxOut ⟨5, [81]⟩]⟩).get? 0 = some w ∧ w.witness = []) ∧
    (∃ e2 : HexDecodeError, decodeWitnessField (some ["0g"]) = .error e2) :=
  ⟨witness_field_semantics.2.1
      { txid := 1, version := 1, locktime := 0,
        vin := [⟨9, 0, none, [0], [], 0, true⟩],
        vout := [⟨5, [81]⟩], size := 10, weight := 40,
        status := ⟨false, none, none, none⟩, fee := 0 }
      ⟨1, 0, [vinToTxIn ⟨9, 0, none, [0], [], 0, true⟩], [voutToTxOut ⟨5, [81]⟩]⟩
      0 ⟨9, 0, none, [0], [], 0, true⟩ rfl rfl rfl,
   witness_field_semantics.2.2 ["0g"] "0g" .invalidChar (by simp) rfl⟩

/-- C8: the hex decoder fails with a `HexDecodeError` on any string with a
non-hex character or odd length, succeeds with the empty byte sequence on
the empty string, and decodes a list of hex strings in source order. -/
theorem hex_decoder_contract :
    (∀ s : String,
      ((∃ c ∈ s.data, hexDigitValue c = none) ∨ s.data.length % 2 = 1) →
      ∃ e : HexDecodeError, from_hex s = .error e) ∧
    from_hex "" = .ok [] ∧
    (∀ (list : List String) (bs : List (List Nat)),
      deserialize_witness list = .ok bs →
      bs.length = list.length ∧
      ∀ (i : Nat) (s : String), list.get? i = some s →
        ∃ b, bs.get? i = some b ∧ from_hex s = .ok b) := by
  refine ⟨fun s h => fromHexChars_error s.data h, rfl, fun list bs h => ?_⟩
  have h' : List.mapM' from_hex list = .ok bs := by
    rw [List.mapM'_eq_mapM]; exact h
  exact mapMHex_ok_pointwise from_hex list bs h'

/-- Witness for C8: the decoder on `"0g"` and on the list `["00"]`. -/
theorem hex_decoder_contract_witness :
    (∃ e : HexDecodeError, from_hex "0g" = .error e) ∧
    (([[(0 : Nat)]] : List (List Nat)).length = (["00"] : List String).length ∧
      ∀ (i : Nat) (s : String), (["00"] : List String).get? i = some s →
        ∃ b, ([[(0 : Nat)]] : List (List Nat)).get? i = some b ∧
          from_hex s = .ok b) :=
  ⟨hex_decoder_contract.1 "0g" (Or.inl ⟨'g', by decide, by decide⟩),
   hex_decoder_contract.2.2 ["00"] [[0]] rfl⟩

/-- The fields of `Vin` that `Tx::to_tx` reads: everything except
`prevout` and `is_coinbase`. -/
def vinKey (v : Vin) : Nat × Nat × List Nat × Nat × List (List Nat) :=
  (v.txid, v.vout, v.scriptsig, v.sequence, v.witness)

/-- The fields of `Vout` that `Tx::to_tx` reads. -/
def voutKey (v : Vout) : Nat × List Nat :=
  (v.value, v.scriptpubkey)

/-- C10: `Tx.to_tx` depends only on version, locktime, the inputs'
(txid, vout, scriptsig, sequence, witness) and the outputs'
(value, scriptpubkey): two records agreeing there but differing in txid,
size, weight, status, fee, or any input's prevout or coinbase flag give
identical results. -/
theorem to_tx_depends_only_on_core (t1 t2 : Tx)
    (hver : t1.version = t2.version) (hlock : t1.locktime = t2.locktime)
    (hvin : t1.vin.map vinKey = t2.vin.map vinKey)
    (hvout : t1.vout.map voutKey = t2.vout.map voutKey) :
    t1.to_tx = t2.to_tx := by
  have evin : ∀ l : List Vin, l.map vinToTxIn =
      (l.map vinKey).map (fun k => ⟨⟨k.1, k.2.1⟩, k.2.2.1, k.2.2.2.1, k.2.2.2.2⟩) := by
    intro l
    rw [List.map_map]
    rfl
  have evout : ∀ l : List Vout, l.map voutToTxOut =
      (l.map voutKey).map (fun k => ⟨k.1, k.2⟩) := by
    intro l
    rw [List.map_map]
    rfl
  have hin : t1.vin.map vinToTxIn = t2.vin.map vinToTxIn := by
    rw [evin, evin, hvin]
  have hout : t1.vout.map voutToTxOut = t2.vout.map voutToTxOut := by
    rw [evout, evout, hvout]
  unfold Tx.to_tx
  simp only [hin, hout, hver, hlock]

/-- Witness for C10: two records differing in txid, size, weight, status,
fee, an input's prevout and its coinbase flag, with equal results. -/
theorem to_tx_depends_only_on_core_witness :
    Tx.to_tx { txid := 1, version := 2, locktime := 3,
               vin := [⟨10, 0, none, [1], [[2]], 5, true⟩],
               vout := [⟨7, [81]⟩], size := 100, weight := 400,
               status := ⟨false, none, none, none⟩, fee := 11 } =
    Tx.to_tx { txid := 99, version := 2, locktime := 3,
               vin := [⟨10, 0, some ⟨7, [81]⟩, [1], [[2]], 5, false⟩],
               vout := [⟨7, [81]⟩], size := 200, weight := 800,
               status := ⟨true, some 5, some 6, some 7⟩, fee := 22 } :=
  to_tx_depends_only_on_core _ _ rfl rfl rfl rfl

end Esplora
